import Mathlib

/-!
Shallow embedding of the core of `profile-views-counter` (Rust):
the view-counter state with debounced persistence (`src/state.rs`) and
the badge-template cache (`src/badge.rs`), together with theorems about
the properties the specification states for them.

Machine integers are modelled as `Nat`/`Int` with explicit wrap-around
(`% 2 ^ 64` for `u64`, a signed cast for `as i64`) where the Rust code
can overflow or cast.
-/

namespace ProfileViews

/-! ## View counter state (`src/state.rs`)

`AppState` holds `views : Arc<Mutex<u64>>` and `prev_views : RwLock<u64>`.
The mutex serializes all accesses, so concurrent executions are modelled
as their serialized interleavings: `update` is a state transformer on the
counter value, and one tick of `update_loop` is a state transformer on
`(views, prev_views)` together with the write request it issues. -/

/-- The `views` counter is a `u64`; `*views += 1` wraps at `2 ^ 64`
(release-mode Rust semantics). `update` returns the pair
(new counter value, value returned to the caller); the source returns
`*views` after the increment, i.e. the new value. -/
def update (views : Nat) : Nat × Nat :=
  let v := (views + 1) % 2 ^ 64
  (v, v)

/-- The counter value after `n` sequential calls to `update`, starting
from `c` (the mutex serializes concurrent callers into such a sequence). -/
def runUpdates (c : Nat) : Nat → Nat
  | 0 => c
  | n + 1 => (update (runUpdates c n)).1

/-- The value returned to the caller of the `i`-th `update` in a run of
sequential calls starting from `c` (calls numbered from 0). -/
def updateReturn (c : Nat) (i : Nat) : Nat :=
  (update (runUpdates c i)).2

/-- Rust's `v as i64` cast of a `u64` value. -/
def i64ofU64 (v : Nat) : Int :=
  if v < 2 ^ 63 then (v : Int) else (v : Int) - 2 ^ 64

/-- Rust's `c as u64` cast of an `i64` value. -/
def u64ofI64 (c : Int) : Nat :=
  (c % 2 ^ 64).toNat

/-- The two counter fields of `AppState`: `views` (the authoritative
count) and `prev_views` (the reconciliation mark). -/
structure AppState where
  views : Nat
  prev_views : Nat
deriving DecidableEq, Repr

/-- Model of `AppState::initialize`: reads the count from the datastore
(`db.get_views()` returns `Result<i64, _>`); on `Ok(count)` both fields
are set to `count as u64` and the state is returned, on `Err` the
function returns `None` and no state is constructed. -/
def initializeState (readResult : Except String Int) : Option AppState :=
  match readResult with
  | .ok count => some ⟨u64ofI64 count, u64ofI64 count⟩
  | .error _ => none

/-- Outcome of one tick of `AppState::update_loop`: the new value of
`prev_views`, the value sent to `db.update_views` (if any), and whether
that store call failed (the failure is only logged; it is not part of
any returned value and the loop continues). -/
structure LoopTick where
  newPrev : Nat
  written : Option Int
  writeFailed : Bool
deriving DecidableEq, Repr

/-- One tick of `AppState::update_loop`: if `views == prev_views`, log
and `continue` (no write, mark unchanged); otherwise set
`prev_views := views` and then call `db.update_views(views as i64)`,
whose outcome (`storeOk`) is only logged. -/
def update_loop_tick (views prev : Nat) (storeOk : Int → Bool) : LoopTick :=
  if views = prev then
    ⟨prev, none, false⟩
  else
    let w := i64ofU64 views
    ⟨views, some w, !storeOk w⟩

/-- States of `AppState` reachable from a successful `initialize` by any
interleaving of `update` calls (guarded against `u64` overflow) and
`update_loop` ticks with arbitrary store outcomes. -/
inductive Reach : AppState → Prop
  | init (r : Except String Int) (s : AppState) :
      initializeState r = some s → Reach s
  | upd (s : AppState) : Reach s → s.views + 1 < 2 ^ 64 →
      Reach ⟨(update s.views).1, s.prev_views⟩
  | tick (s : AppState) (storeOk : Int → Bool) : Reach s →
      Reach ⟨s.views, (update_loop_tick s.views s.prev_views storeOk).newPrev⟩

/-! ## Badge template cache (`src/badge.rs`)

`Shields` holds `cache: RwLock<HashMap<String, String>>`. The lock
serializes writers, so the cache is modelled as an association list with
`HashMap` semantics: `insert` replaces any entry with the same key,
`remove` deletes the entry with the given key. The `reqwest` call to
shields.io is abstracted as a function from the query string to an
`Except` result (`Ok` body or propagated error). -/

/-- The `label`, `color` and `style` query parameters
(`ShieldsIoParams` in `src/badge.rs`). -/
structure ShieldsIoParams where
  label : String
  color : String
  style : String
deriving DecidableEq, Repr

/-- Model of `ShieldsIoParams::to_query_string_template`: the padding is one `'*'`
per character of `views.to_string()`, and the query string is
`label={}&color={}&style={}&message={}` with the padding as message.
Returns `(query_string_template, padding)`. -/
def to_query_string_template (p : ShieldsIoParams) (views : Nat) :
    String × String :=
  let padding : String := String.mk ((Nat.repr views).data.map fun _ => Char.ofNat 42)
  ("label=" ++ p.label ++ "&color=" ++ p.color ++ "&style=" ++ p.style ++
    "&message=" ++ padding, padding)

/-- The cache mapping from query-string keys to cached badge templates. -/
abbrev Cache := List (String × String)

/-- Model of `HashMap::get`: the value stored under `key`, if any. -/
def lookupC : Cache → String → Option String
  | [], _ => none
  | (k, v) :: rest, key => if k = key then some v else lookupC rest key

/-- Model of `HashMap::remove`: delete the entry stored under `k`. -/
def removeC : Cache → String → Cache
  | [], _ => []
  | e :: rest, k => if e.1 = k then removeC rest k else e :: removeC rest k

/-- Model of `HashMap::insert`: store `v` under `k`, replacing any previous
entry with that key. -/
def insertC (c : Cache) (k v : String) : Cache :=
  (k, v) :: removeC c k

/-- Rust's `&key.as_str()[..key.len() - 1]`: the key minus its final
character (the keys passed here always end in the single-byte `'*'`,
so the byte slice drops exactly the last character). -/
def dropLastChar (s : String) : String :=
  String.mk s.data.dropLast

/-- Model of `Shields::update_cache`: remove the old key (the key with one less
padding character), then insert the new key with the fetched template. -/
def update_cache (c : Cache) (key value : String) : Cache :=
  let old_key := dropLastChar key
  insertC (removeC c old_key) key value

/-- One pass of Rust's `str::replace`: scan left to right, replacing
each non-overlapping occurrence of `pat` by `rep`. The `fuel` argument
makes the recursion structural; each step consumes at least one
character, so `fuel = l.length` never runs out. -/
def replaceLoop (pat rep : List Char) : Nat → List Char → List Char
  | _, [] => []
  | 0, l => l
  | fuel + 1, ch :: rest =>
    if pat.isPrefixOf (ch :: rest) then
      rep ++ replaceLoop pat rep fuel (rest.drop (pat.length - 1))
    else
      ch :: replaceLoop pat rep fuel rest

/-- Rust's `badge.replace(&padding, ...)`. The pattern passed at every
call site is the padding, which always has at least one character
(`Nat`'s decimal string is never empty), so the empty-pattern corner of
`str::replace` is unreachable and is mapped to the identity. -/
def replaceChars (s pat rep : String) : String :=
  if pat.data = [] then s
  else String.mk (replaceLoop pat.data rep.data s.data.length s.data)

/-- Result of `<Shields as ShieldsIoFetcher>::fetch`: the returned
value, the cache contents afterwards, how many calls were made to the
remote badge renderer, and the query string passed to it (if called). -/
structure FetchResult where
  result : Except String String
  cache : Cache
  rendererCalls : Nat
  calledWith : Option String
deriving Repr

/-- Model of `<Shields as ShieldsIoFetcher>::fetch`: build the query string and
padding; on a cache hit return the cached template with the padding
replaced by the decimal count; on a miss call the renderer with the
query string (message = padding), propagate its error, or cache the
unsubstituted template via `update_cache` and return the substituted
badge. -/
def fetch (renderer : String → Except String String) (cache : Cache)
    (p : ShieldsIoParams) (views : Nat) : FetchResult :=
  let qp := to_query_string_template p views
  let query_params := qp.1
  let padding := qp.2
  match lookupC cache query_params with
  | some badge =>
      ⟨.ok (replaceChars badge padding (Nat.repr views)), cache, 0, none⟩
  | none =>
      match renderer query_params with
      | .error e => ⟨.error e, cache, 1, some query_params⟩
      | .ok badge_template =>
          let badge := replaceChars badge_template padding (Nat.repr views)
          ⟨.ok badge, update_cache cache query_params badge_template, 1,
            some query_params⟩

/-- Cache states reachable from the empty cache (`Shields::new`) by any
sequence of `fetch` operations against a fixed remote renderer, over
arbitrary params and counts. -/
inductive ReachableCache (renderer : String → Except String String) :
    Cache → Prop
  | init : ReachableCache renderer []
  | step (c : Cache) (p : ShieldsIoParams) (views : Nat) :
      ReachableCache renderer c →
      ReachableCache renderer (fetch renderer c p views).cache

/-- Number of cache entries whose key has exactly `w` trailing `'*'`
characters — the digit-width class an entry belongs to. -/
def trailingStars (s : String) : Nat :=
  (s.data.reverse.takeWhile fun ch => ch = Char.ofNat 42).length

/-- Number of cache entries in the digit-width class `w`. -/
def countWidth (c : Cache) (w : Nat) : Nat :=
  c.countP fun e => trailingStars e.1 == w

/-- Number of cache entries stored under the key `k`. -/
def countKeyC (c : Cache) (k : String) : Nat :=
  c.countP fun e => e.1 == k

/-- A deterministic remote renderer used for concrete runs: echoes the
query string back as the badge body. -/
def echoRenderer : String → Except String String :=
  fun q => .ok q

/-- A remote renderer whose calls all fail, as on a network timeout. -/
def failRenderer : String → Except String String :=
  fun _ => .error "request timed out"

/-! ## Helper lemmas -/

lemma runUpdates_eq (c : Nat) (N : Nat) (h : c + N < 2 ^ 64) :
    runUpdates c N = c + N := by
  induction N with
  | zero => rfl
  | succ n ih =>
    have hn : c + n < 2 ^ 64 := by omega
    have hstep : runUpdates c (n + 1) = (runUpdates c n + 1) % 2 ^ 64 := rfl
    rw [hstep, ih hn, Nat.mod_eq_of_lt (by omega)]
    omega

lemma i64ofU64_eq (v : Nat) (h : v < 2 ^ 63) : i64ofU64 v = (v : Int) := by
  unfold i64ofU64
  exact if_pos h

lemma update_loop_tick_eq_of_eq (views prev : Nat) (storeOk : Int → Bool)
    (h : views = prev) :
    update_loop_tick views prev storeOk = ⟨prev, none, false⟩ := by
  simp [update_loop_tick, h]

lemma update_loop_tick_eq_of_ne (views prev : Nat) (storeOk : Int → Bool)
    (h : views ≠ prev) :
    update_loop_tick views prev storeOk =
      ⟨views, some (i64ofU64 views), !storeOk (i64ofU64 views)⟩ := by
  simp [update_loop_tick, h]

/-! ## Theorems: view counter state -/

/-- C1: for every initial count `c` and number `N` of calls to
`AppState::update` (serialized by the mutex, so concurrent callers form
a sequence), assuming the `u64` counter does not overflow, the final
count is exactly `c + N` (no increment lost) and the `i`-th call returns
the value immediately after its own increment: one more than the value
it observed, which is also the counter value it leaves behind. -/
theorem update_counts_every_increment (c N : Nat) (h : c + N < 2 ^ 64) :
    runUpdates c N = c + N ∧
    ∀ i, i < N → updateReturn c i = runUpdates c i + 1 ∧
      updateReturn c i = runUpdates c (i + 1) := by
  refine ⟨runUpdates_eq c N h, fun i hi => ?_⟩
  have hci : c + i < 2 ^ 64 := by omega
  have hret : updateReturn c i = (runUpdates c i + 1) % 2 ^ 64 := rfl
  have hnext : runUpdates c (i + 1) = (runUpdates c i + 1) % 2 ^ 64 := rfl
  rw [hret, hnext, runUpdates_eq c i hci, Nat.mod_eq_of_lt (by omega)]
  exact ⟨rfl, rfl⟩

/-- Witness for C1 at `c = 41`, `N = 3`. -/
theorem update_counts_every_increment_witness :
    41 + 3 < 2 ^ 64 ∧
    (runUpdates 41 3 = 41 + 3 ∧
      ∀ i, i < 3 → updateReturn 41 i = runUpdates 41 i + 1 ∧
        updateReturn 41 i = runUpdates 41 (i + 1)) :=
  ⟨by norm_num, update_counts_every_increment 41 3 (by norm_num)⟩

/-- C2: on a tick of the reconciliation loop, if `views = prev_views`
nothing is written and the mark is unchanged; if they differ the mark is
set to the current snapshot and that same snapshot is written (as `i64`;
the hypothesis keeps the cast lossless). The mark's new value does not
depend on the store outcome — it is set before the write — and any value
a tick writes is the current snapshot, never an intermediate value. -/
theorem tick_writes_latest_snapshot_only (views prev : Nat)
    (storeOk : Int → Bool) (h : views < 2 ^ 63) :
    (views = prev → update_loop_tick views prev storeOk = ⟨prev, none, false⟩) ∧
    (views ≠ prev →
      (update_loop_tick views prev storeOk).newPrev = views ∧
      (update_loop_tick views prev storeOk).written = some (views : Int)) ∧
    (∀ sOk2 : Int → Bool,
      (update_loop_tick views prev storeOk).newPrev =
        (update_loop_tick views prev sOk2).newPrev) ∧
    (∀ w : Int,
      (update_loop_tick views prev storeOk).written = some w → w = (views : Int)) := by
  by_cases hvp : views = prev
  · refine ⟨fun _ => update_loop_tick_eq_of_eq views prev storeOk hvp,
      fun hne => absurd hvp hne, fun sOk2 => ?_, fun w hw => ?_⟩
    · rw [update_loop_tick_eq_of_eq views prev storeOk hvp,
        update_loop_tick_eq_of_eq views prev sOk2 hvp]
    · rw [update_loop_tick_eq_of_eq views prev storeOk hvp] at hw
      simp at hw
  · refine ⟨fun heq => absurd heq hvp, fun _ => ?_, fun sOk2 => ?_, fun w hw => ?_⟩
    · rw [update_loop_tick_eq_of_ne views prev storeOk hvp, i64ofU64_eq views h]
      exact ⟨rfl, rfl⟩
    · rw [update_loop_tick_eq_of_ne views prev storeOk hvp,
        update_loop_tick_eq_of_ne views prev sOk2 hvp]
    · rw [update_loop_tick_eq_of_ne views prev storeOk hvp, i64ofU64_eq views h] at hw
      simpa using hw.symm

/-- Witness for C2 at `views = 5`, `prev = 3`. -/
theorem tick_writes_latest_snapshot_only_witness :
    (5 : Nat) < 2 ^ 63 ∧
    (((5 : Nat) = 3 → update_loop_tick 5 3 (fun _ => true) = ⟨3, none, false⟩) ∧
      ((5 : Nat) ≠ 3 →
        (update_loop_tick 5 3 (fun _ => true)).newPrev = 5 ∧
        (update_loop_tick 5 3 (fun _ => true)).written = some ((5 : Nat) : Int)) ∧
      (∀ sOk2 : Int → Bool,
        (update_loop_tick 5 3 (fun _ => true)).newPrev =
          (update_loop_tick 5 3 sOk2).newPrev) ∧
      (∀ w : Int,
        (update_loop_tick 5 3 (fun _ => true)).written = some w →
          w = ((5 : Nat) : Int))) :=
  ⟨by norm_num, tick_writes_latest_snapshot_only 5 3 (fun _ => true) (by norm_num)⟩

/-- C5, counterexample: a tick at `views = 5`, `prev_views = 4` with a
failing store writes `5`, the write fails — and the next tick, with no
increments in between, performs no store write at all: the failed value
is not retried, because `prev_views` was already advanced to `5` before
the write was attempted. -/
theorem failed_write_skipped_next_tick :
    (update_loop_tick 5 4 (fun _ => false)).written = some 5 ∧
    (update_loop_tick 5 4 (fun _ => false)).writeFailed = true ∧
    (update_loop_tick 5 (update_loop_tick 5 4 (fun _ => false)).newPrev
      (fun _ => false)).written = none :=
  ⟨rfl, rfl, rfl⟩

/-- C5, amended: a reconciliation write failure is only logged — the
tick's state transition is the same whatever the store outcome, and no
error is part of the tick's result — and the latest snapshot is written
again on a later tick only if `views` has changed since the failed
snapshot; with no intervening increments the next tick skips the write. -/
theorem write_failure_logged_retried_only_on_change
    (v p v2 : Nat) (storeOk : Int → Bool)
    (hne : v ≠ p) (hfail : storeOk (i64ofU64 v) = false) :
    (update_loop_tick v p storeOk).written = some (i64ofU64 v) ∧
    (update_loop_tick v p storeOk).writeFailed = true ∧
    (∀ sOk2 : Int → Bool,
      (update_loop_tick v p storeOk).newPrev = (update_loop_tick v p sOk2).newPrev) ∧
    ((update_loop_tick v2 (update_loop_tick v p storeOk).newPrev storeOk).written =
      if v2 = v then none else some (i64ofU64 v2)) := by
  have h1 := update_loop_tick_eq_of_ne v p storeOk hne
  refine ⟨by rw [h1], by rw [h1, hfail]; rfl, fun sOk2 => ?_, ?_⟩
  · rw [h1, update_loop_tick_eq_of_ne v p sOk2 hne]
  · rw [h1]
    by_cases h2 : v2 = v
    · rw [update_loop_tick_eq_of_eq v2 v storeOk h2, if_pos h2]
    · rw [update_loop_tick_eq_of_ne v2 v storeOk h2, if_neg h2]

/-- Witness for the amended C5 at `v = 5`, `p = 4`, `v2 = 5`. -/
theorem write_failure_logged_retried_only_on_change_witness :
    (update_loop_tick 5 4 (fun _ => false)).written = some (i64ofU64 5) ∧
    (update_loop_tick 5 4 (fun _ => false)).writeFailed = true ∧
    (∀ sOk2 : Int → Bool,
      (update_loop_tick 5 4 (fun _ => false)).newPrev =
        (update_loop_tick 5 4 sOk2).newPrev) ∧
    ((update_loop_tick 5 (update_loop_tick 5 4 (fun _ => false)).newPrev
        (fun _ => false)).written =
      if (5 : Nat) = 5 then none else some (i64ofU64 5)) :=
  write_failure_logged_retried_only_on_change 5 4 5 (fun _ => false)
    (by norm_num) rfl

/-- C8: `AppState::initialize` returns `None` (no state constructed)
exactly when the initial store read fails; on a successful read of a
value in the `i64` range representable as a count, both counter fields
equal the value read. -/
theorem initialize_fails_iff_read_fails (r : Except String Int) :
    (initializeState r = none ↔ ∃ e, r = .error e) ∧
    (∀ count : Int, r = .ok count → 0 ≤ count → count < 2 ^ 63 →
      initializeState r = some ⟨count.toNat, count.toNat⟩ ∧
        ((count.toNat : Int) = count)) := by
  constructor
  · cases r with
    | ok c => simp [initializeState]
    | error e => simp [initializeState]
  · rintro count rfl h0 h1
    have hmod : count % 2 ^ 64 = count :=
      Int.emod_eq_of_lt h0 (by norm_num; omega)
    constructor
    · simp only [initializeState, u64ofI64, hmod]
    · omega

/-- Witness for C8 at a successful read of `41`. -/
theorem initialize_fails_iff_read_fails_witness :
    initializeState (.ok 41) = some ⟨(41 : Int).toNat, (41 : Int).toNat⟩ ∧
      (((41 : Int).toNat : Int) = 41) :=
  (initialize_fails_iff_read_fails (.ok 41)).2 41 rfl (by norm_num) (by norm_num)

/-- C9: in every state reachable from a successful `initialize` by
increments (without `u64` overflow) and reconciliation-loop ticks, the
reconciliation mark `prev_views` is at most the counter `views`. -/
theorem reconciliation_mark_le_views (s : AppState) (h : Reach s) :
    s.prev_views ≤ s.views := by
  induction h with
  | init r s hr =>
    cases r with
    | ok c =>
      simp only [initializeState, Option.some.injEq] at hr
      rw [← hr]
    | error e => simp [initializeState] at hr
  | upd s hs hlt ih =>
    show s.prev_views ≤ (update s.views).1
    have hval : (update s.views).1 = (s.views + 1) % 2 ^ 64 := rfl
    rw [hval, Nat.mod_eq_of_lt hlt]
    omega
  | tick s storeOk hs ih =>
    show (update_loop_tick s.views s.prev_views storeOk).newPrev ≤ s.views
    by_cases hvp : s.views = s.prev_views
    · rw [update_loop_tick_eq_of_eq _ _ _ hvp]
      exact ih
    · rw [update_loop_tick_eq_of_ne _ _ _ hvp]

/-- Witness for C9 at the state reached by `initialize` reading `41`
followed by one increment. -/
theorem reconciliation_mark_le_views_witness :
    (⟨42, 41⟩ : AppState).prev_views ≤ (⟨42, 41⟩ : AppState).views :=
  reconciliation_mark_le_views ⟨42, 41⟩
    (Reach.upd ⟨41, 41⟩ (Reach.init (.ok 41) ⟨41, 41⟩ rfl) (by norm_num))

lemma star_char : Char.ofNat 42 = '*' := rfl

lemma toDigitsCore_length (b : Nat) (fuel n : Nat) (ds : List Char) :
    ds.length + 1 ≤ (Nat.toDigitsCore b (fuel + 1) n ds).length := by
  induction fuel generalizing n ds with
  | zero =>
    by_cases h : n / b = 0 <;> simp [Nat.toDigitsCore, h]
  | succ fuel ih =>
    by_cases h : n / b = 0
    · conv_rhs => rw [Nat.toDigitsCore]
      rw [if_pos h]
      simp
    · conv_rhs => rw [Nat.toDigitsCore]
      rw [if_neg h]
      have hrec := ih (n / b) (Nat.digitChar (n % b) :: ds)
      simp only [List.length_cons] at hrec
      omega

lemma repr_length_pos (n : Nat) : 1 ≤ (Nat.repr n).length := by
  have h := toDigitsCore_length 10 n n []
  simpa using h

lemma padding_eq (p : ShieldsIoParams) (views : Nat) :
    (to_query_string_template p views).2 =
      String.mk (List.replicate (Nat.repr views).length (Char.ofNat 42)) := by
  show String.mk ((Nat.repr views).data.map fun _ => Char.ofNat 42) = _
  rw [List.map_const']
  rfl

lemma key_eq (p : ShieldsIoParams) (views : Nat) :
    (to_query_string_template p views).1 =
      ("label=" ++ p.label ++ "&color=" ++ p.color ++ "&style=" ++ p.style ++
        "&message=") ++ (to_query_string_template p views).2 := rfl

lemma dropLastChar_append_replicate (s : String) (d : Nat) (c : Char) :
    dropLastChar (s ++ String.mk (List.replicate (d + 1) c)) =
      s ++ String.mk (List.replicate d c) := by
  have h1 : (s ++ String.mk (List.replicate (d + 1) c)).data.dropLast =
      s.data ++ List.replicate d c := by
    rw [String.data_append, List.replicate_succ']
    show (s.data ++ (List.replicate d c ++ [c])).dropLast = _
    rw [← List.append_assoc, List.dropLast_concat]
  show String.mk _ = _
  rw [h1]
  rfl

lemma dropLastChar_ne (s : String) (h : s.data ≠ []) : dropLastChar s ≠ s := by
  intro he
  have hlen := congrArg (fun t => t.data.length) he
  simp only [dropLastChar, List.length_dropLast] at hlen
  have hpos : 0 < s.data.length := List.length_pos.mpr h
  omega

lemma lookupC_cons (e : String × String) (rest : Cache) (key : String) :
    lookupC (e :: rest) key = if e.1 = key then some e.2 else lookupC rest key := rfl

lemma removeC_cons (e : String × String) (rest : Cache) (k : String) :
    removeC (e :: rest) k =
      if e.1 = k then removeC rest k else e :: removeC rest k := rfl

lemma countKeyC_cons (e : String × String) (rest : Cache) (k : String) :
    countKeyC (e :: rest) k = countKeyC rest k + if e.1 = k then 1 else 0 := by
  simp only [countKeyC, List.countP_cons, beq_iff_eq]

lemma lookupC_removeC_self (c : Cache) (k : String) :
    lookupC (removeC c k) k = none := by
  induction c with
  | nil => rfl
  | cons e rest ih =>
    rw [removeC_cons]
    by_cases h1 : e.1 = k
    · rw [if_pos h1]
      exact ih
    · rw [if_neg h1, lookupC_cons, if_neg h1]
      exact ih

lemma lookupC_removeC_none (c : Cache) (k k' : String)
    (h : lookupC c k' = none) : lookupC (removeC c k) k' = none := by
  induction c with
  | nil => rfl
  | cons e rest ih =>
    rw [lookupC_cons] at h
    by_cases h1 : e.1 = k'
    · rw [if_pos h1] at h
      exact absurd h (by simp)
    · rw [if_neg h1] at h
      rw [removeC_cons]
      by_cases h2 : e.1 = k
      · rw [if_pos h2]
        exact ih h
      · rw [if_neg h2, lookupC_cons, if_neg h1]
        exact ih h

lemma lookupC_update_cache_self (c : Cache) (key value : String) :
    lookupC (update_cache c key value) key = some value := by
  show lookupC ((key, value) :: _) key = some value
  rw [lookupC_cons, if_pos rfl]

lemma lookupC_update_cache_old (c : Cache) (key value : String)
    (hne : dropLastChar key ≠ key) :
    lookupC (update_cache c key value) (dropLastChar key) = none := by
  show lookupC ((key, value) :: removeC (removeC c (dropLastChar key)) key)
    (dropLastChar key) = none
  rw [lookupC_cons, if_neg (fun hh => hne hh.symm)]
  exact lookupC_removeC_none _ key _ (lookupC_removeC_self c (dropLastChar key))

lemma countKeyC_removeC_le (c : Cache) (k' k : String) :
    countKeyC (removeC c k') k ≤ countKeyC c k := by
  induction c with
  | nil => exact le_refl _
  | cons e rest ih =>
    rw [removeC_cons]
    by_cases h1 : e.1 = k'
    · rw [if_pos h1]
      refine le_trans ih ?_
      rw [countKeyC_cons]
      omega
    · rw [if_neg h1, countKeyC_cons, countKeyC_cons]
      split_ifs <;> omega

lemma countKeyC_removeC_self (c : Cache) (k : String) :
    countKeyC (removeC c k) k = 0 := by
  induction c with
  | nil => rfl
  | cons e rest ih =>
    rw [removeC_cons]
    by_cases h1 : e.1 = k
    · rw [if_pos h1]
      exact ih
    · rw [if_neg h1, countKeyC_cons, if_neg h1, ih]

lemma countKeyC_update_cache (c : Cache) (key value k : String)
    (h : countKeyC c k ≤ 1) :
    countKeyC (update_cache c key value) k ≤ 1 := by
  show countKeyC ((key, value) :: removeC (removeC c (dropLastChar key)) key) k ≤ 1
  rw [countKeyC_cons]
  by_cases hk : key = k
  · have hz : countKeyC (removeC (removeC c (dropLastChar key)) key) k = 0 := by
      rw [← hk]
      exact countKeyC_removeC_self _ key
    rw [hz, if_pos hk]
  · have hle := le_trans (countKeyC_removeC_le (removeC c (dropLastChar key)) key k)
      (countKeyC_removeC_le c (dropLastChar key) k)
    rw [if_neg hk]
    omega

lemma fetch_eq_hit (renderer : String → Except String String) (c : Cache)
    (p : ShieldsIoParams) (views : Nat) (t : String)
    (h : lookupC c (to_query_string_template p views).1 = some t) :
    fetch renderer c p views =
      ⟨.ok (replaceChars t (to_query_string_template p views).2 (Nat.repr views)),
        c, 0, none⟩ := by
  simp only [fetch, h]

lemma fetch_eq_miss_err (renderer : String → Except String String) (c : Cache)
    (p : ShieldsIoParams) (views : Nat) (e : String)
    (h1 : lookupC c (to_query_string_template p views).1 = none)
    (h2 : renderer (to_query_string_template p views).1 = .error e) :
    fetch renderer c p views =
      ⟨.error e, c, 1, some (to_query_string_template p views).1⟩ := by
  simp only [fetch, h1, h2]

lemma fetch_eq_miss_ok (renderer : String → Except String String) (c : Cache)
    (p : ShieldsIoParams) (views : Nat) (t : String)
    (h1 : lookupC c (to_query_string_template p views).1 = none)
    (h2 : renderer (to_query_string_template p views).1 = .ok t) :
    fetch renderer c p views =
      ⟨.ok (replaceChars t (to_query_string_template p views).2 (Nat.repr views)),
        update_cache c (to_query_string_template p views).1 t, 1,
        some (to_query_string_template p views).1⟩ := by
  simp only [fetch, h1, h2]

lemma padding_data_length (p : ShieldsIoParams) (views : Nat) :
    (to_query_string_template p views).2.data.length = (Nat.repr views).length := by
  rw [padding_eq]
  exact List.length_replicate _ _

lemma key_data_ne_nil (p : ShieldsIoParams) (views : Nat) :
    (to_query_string_template p views).1.data ≠ [] := by
  intro h
  have hlen := congrArg List.length h
  rw [key_eq, String.data_append, List.length_append] at hlen
  simp only [List.length_nil] at hlen
  have h2 := padding_data_length p views
  have h3 := repr_length_pos views
  omega

/-! ## Theorems: badge template cache -/

/-- C3: on a cache miss with a successful renderer call, `fetch`
(1) calls the remote renderer with the query string whose message is
`'*'` repeated once per decimal digit of the count, (2) stores the
returned unsubstituted template under the key built from label, color,
style and the padding placeholder, (3) leaves no entry under the key
with one fewer trailing `'*'` (the same params with digit-width one
less), and (4) returns the template with the placeholder replaced by
the decimal string of the count. -/
theorem fetch_miss_fetches_template_and_evicts
    (renderer : String → Except String String) (c : Cache)
    (p : ShieldsIoParams) (views : Nat) (t : String)
    (hmiss : lookupC c (to_query_string_template p views).1 = none)
    (hok : renderer (to_query_string_template p views).1 = .ok t) :
    (fetch renderer c p views).calledWith =
      some ("label=" ++ p.label ++ "&color=" ++ p.color ++ "&style=" ++ p.style ++
        "&message=" ++
        String.mk (List.replicate (Nat.repr views).length (Char.ofNat 42))) ∧
    (fetch renderer c p views).rendererCalls = 1 ∧
    lookupC (fetch renderer c p views).cache
      (to_query_string_template p views).1 = some t ∧
    lookupC (fetch renderer c p views).cache
      ("label=" ++ p.label ++ "&color=" ++ p.color ++ "&style=" ++ p.style ++
        "&message=" ++
        String.mk (List.replicate ((Nat.repr views).length - 1) (Char.ofNat 42))) = none ∧
    (fetch renderer c p views).result =
      .ok (replaceChars t (to_query_string_template p views).2 (Nat.repr views)) := by
  have hkey : (to_query_string_template p views).1 =
      ("label=" ++ p.label ++ "&color=" ++ p.color ++ "&style=" ++ p.style ++
        "&message=") ++
        String.mk (List.replicate (Nat.repr views).length (Char.ofNat 42)) := by
    rw [key_eq, padding_eq]
  have hf := fetch_eq_miss_ok renderer c p views t hmiss hok
  obtain ⟨e, he⟩ : ∃ e, (Nat.repr views).length = e + 1 :=
    ⟨(Nat.repr views).length - 1, by have := repr_length_pos views; omega⟩
  have hold : dropLastChar (to_query_string_template p views).1 =
      ("label=" ++ p.label ++ "&color=" ++ p.color ++ "&style=" ++ p.style ++
        "&message=") ++
        String.mk (List.replicate ((Nat.repr views).length - 1) (Char.ofNat 42)) := by
    rw [hkey, he, Nat.add_sub_cancel, dropLastChar_append_replicate]
  have hne : dropLastChar (to_query_string_template p views).1 ≠
      (to_query_string_template p views).1 :=
    dropLastChar_ne _ (key_data_ne_nil p views)
  refine ⟨?_, ?_, ?_, ?_, ?_⟩
  · rw [hf]
    exact congrArg some hkey
  · rw [hf]
  · rw [hf]
    exact lookupC_update_cache_self c _ t
  · rw [hf, ← hold]
    exact lookupC_update_cache_old c _ t hne
  · rw [hf]

/-- Witness for C3: params `{a, c, s}` at count `100` with a width-2
entry already cached; the renderer echoes the query string. -/
theorem fetch_miss_fetches_template_and_evicts_witness :
    (fetch echoRenderer [("label=a&color=c&style=s&message=**", "W2")]
        ⟨"a", "c", "s"⟩ 100).calledWith =
      some ("label=" ++ "a" ++ "&color=" ++ "c" ++ "&style=" ++ "s" ++
        "&message=" ++
        String.mk (List.replicate (Nat.repr 100).length (Char.ofNat 42))) ∧
    (fetch echoRenderer [("label=a&color=c&style=s&message=**", "W2")]
        ⟨"a", "c", "s"⟩ 100).rendererCalls = 1 ∧
    lookupC (fetch echoRenderer [("label=a&color=c&style=s&message=**", "W2")]
        ⟨"a", "c", "s"⟩ 100).cache
      (to_query_string_template ⟨"a", "c", "s"⟩ 100).1 =
        some (to_query_string_template ⟨"a", "c", "s"⟩ 100).1 ∧
    lookupC (fetch echoRenderer [("label=a&color=c&style=s&message=**", "W2")]
        ⟨"a", "c", "s"⟩ 100).cache
      ("label=" ++ "a" ++ "&color=" ++ "c" ++ "&style=" ++ "s" ++
        "&message=" ++
        String.mk (List.replicate ((Nat.repr 100).length - 1) (Char.ofNat 42))) = none ∧
    (fetch echoRenderer [("label=a&color=c&style=s&message=**", "W2")]
        ⟨"a", "c", "s"⟩ 100).result =
      .ok (replaceChars (to_query_string_template ⟨"a", "c", "s"⟩ 100).1
        (to_query_string_template ⟨"a", "c", "s"⟩ 100).2 (Nat.repr 100)) :=
  fetch_miss_fetches_template_and_evicts echoRenderer
    [("label=a&color=c&style=s&message=**", "W2")] ⟨"a", "c", "s"⟩ 100
    (to_query_string_template ⟨"a", "c", "s"⟩ 100).1 rfl rfl

/-- C4: with a deterministic renderer and a first `fetch` that returns
successfully, a second `fetch` with the same params and count returns
the identical output, leaves the cache untouched, makes no renderer
call of its own, and the two calls together make at most one renderer
call: the second is a cache hit served from the stored template. -/
theorem fetch_twice_same_output_one_call
    (renderer : String → Except String String) (c : Cache)
    (p : ShieldsIoParams) (views : Nat)
    (h : ∃ s, (fetch renderer c p views).result = .ok s) :
    (fetch renderer (fetch renderer c p views).cache p views).result =
      (fetch renderer c p views).result ∧
    (fetch renderer (fetch renderer c p views).cache p views).cache =
      (fetch renderer c p views).cache ∧
    (fetch renderer (fetch renderer c p views).cache p views).rendererCalls = 0 ∧
    (fetch renderer c p views).rendererCalls +
      (fetch renderer (fetch renderer c p views).cache p views).rendererCalls ≤ 1 := by
  obtain ⟨s, hs⟩ := h
  cases hlk : lookupC c (to_query_string_template p views).1 with
  | some t =>
    have h1 := fetch_eq_hit renderer c p views t hlk
    have hcache : (fetch renderer c p views).cache = c := by rw [h1]
    rw [hcache, h1]
    exact ⟨rfl, rfl, rfl, by norm_num⟩
  | none =>
    cases hr : renderer (to_query_string_template p views).1 with
    | error e =>
      have h1 := fetch_eq_miss_err renderer c p views e hlk hr
      rw [h1] at hs
      exact absurd hs (by simp)
    | ok t =>
      have h1 := fetch_eq_miss_ok renderer c p views t hlk hr
      have hcache : (fetch renderer c p views).cache =
          update_cache c (to_query_string_template p views).1 t := by rw [h1]
      have hlk2 : lookupC (update_cache c (to_query_string_template p views).1 t)
          (to_query_string_template p views).1 = some t :=
        lookupC_update_cache_self c _ t
      have h2 := fetch_eq_hit renderer
        (update_cache c (to_query_string_template p views).1 t) p views t hlk2
      rw [hcache, h2, h1]
      exact ⟨rfl, rfl, rfl, by norm_num⟩

/-- Witness for C4: echo renderer, empty cache, count `42`. -/
theorem fetch_twice_same_output_one_call_witness :
    (fetch echoRenderer (fetch echoRenderer [] ⟨"l", "c", "f"⟩ 42).cache
        ⟨"l", "c", "f"⟩ 42).result =
      (fetch echoRenderer [] ⟨"l", "c", "f"⟩ 42).result ∧
    (fetch echoRenderer (fetch echoRenderer [] ⟨"l", "c", "f"⟩ 42).cache
        ⟨"l", "c", "f"⟩ 42).cache =
      (fetch echoRenderer [] ⟨"l", "c", "f"⟩ 42).cache ∧
    (fetch echoRenderer (fetch echoRenderer [] ⟨"l", "c", "f"⟩ 42).cache
        ⟨"l", "c", "f"⟩ 42).rendererCalls = 0 ∧
    (fetch echoRenderer [] ⟨"l", "c", "f"⟩ 42).rendererCalls +
      (fetch echoRenderer (fetch echoRenderer [] ⟨"l", "c", "f"⟩ 42).cache
        ⟨"l", "c", "f"⟩ 42).rendererCalls ≤ 1 :=
  fetch_twice_same_output_one_call echoRenderer [] ⟨"l", "c", "f"⟩ 42
    ⟨replaceChars (to_query_string_template ⟨"l", "c", "f"⟩ 42).1
      (to_query_string_template ⟨"l", "c", "f"⟩ 42).2 (Nat.repr 42), rfl⟩

/-- C7: on a cache miss whose renderer call fails, `fetch` returns a
failure carrying exactly the renderer's error and the cache is left
unchanged — no entry created, replaced or evicted. -/
theorem fetch_renderer_failure_cache_unchanged
    (renderer : String → Except String String) (c : Cache)
    (p : ShieldsIoParams) (views : Nat) (e : String)
    (hmiss : lookupC c (to_query_string_template p views).1 = none)
    (herr : renderer (to_query_string_template p views).1 = .error e) :
    (fetch renderer c p views).result = .error e ∧
    (fetch renderer c p views).cache = c := by
  rw [fetch_eq_miss_err renderer c p views e hmiss herr]
  exact ⟨rfl, rfl⟩

/-- Witness for C7: a failing renderer on a miss, with an unrelated
entry already in the cache. -/
theorem fetch_renderer_failure_cache_unchanged_witness :
    (fetch failRenderer [("label=x&color=y&style=z&message=*", "T")]
        ⟨"l", "c", "f"⟩ 7).result = .error "request timed out" ∧
    (fetch failRenderer [("label=x&color=y&style=z&message=*", "T")]
        ⟨"l", "c", "f"⟩ 7).cache =
      [("label=x&color=y&style=z&message=*", "T")] :=
  fetch_renderer_failure_cache_unchanged failRenderer
    [("label=x&color=y&style=z&message=*", "T")] ⟨"l", "c", "f"⟩ 7
    "request timed out" rfl rfl

/-- C10: when the cache holds an entry for the computed key, `fetch`
makes no renderer call and leaves the cache mapping exactly as it was,
returning the cached template with the placeholder substituted. -/
theorem fetch_hit_no_call_cache_unchanged
    (renderer : String → Except String String) (c : Cache)
    (p : ShieldsIoParams) (views : Nat) (t : String)
    (h : lookupC c (to_query_string_template p views).1 = some t) :
    (fetch renderer c p views).rendererCalls = 0 ∧
    (fetch renderer c p views).calledWith = none ∧
    (fetch renderer c p views).cache = c ∧
    (fetch renderer c p views).result =
      .ok (replaceChars t (to_query_string_template p views).2 (Nat.repr views)) := by
  rw [fetch_eq_hit renderer c p views t h]
  exact ⟨rfl, rfl, rfl, rfl⟩

/-- Witness for C10: a cached width-2 template served at count `42`;
the renderer (which would fail) is never consulted. -/
theorem fetch_hit_no_call_cache_unchanged_witness :
    (fetch failRenderer [("label=l&color=c&style=f&message=**", "<svg>**</svg>")]
        ⟨"l", "c", "f"⟩ 42).rendererCalls = 0 ∧
    (fetch failRenderer [("label=l&color=c&style=f&message=**", "<svg>**</svg>")]
        ⟨"l", "c", "f"⟩ 42).calledWith = none ∧
    (fetch failRenderer [("label=l&color=c&style=f&message=**", "<svg>**</svg>")]
        ⟨"l", "c", "f"⟩ 42).cache =
      [("label=l&color=c&style=f&message=**", "<svg>**</svg>")] ∧
    (fetch failRenderer [("label=l&color=c&style=f&message=**", "<svg>**</svg>")]
        ⟨"l", "c", "f"⟩ 42).result =
      .ok (replaceChars "<svg>**</svg>"
        (to_query_string_template ⟨"l", "c", "f"⟩ 42).2 (Nat.repr 42)) :=
  fetch_hit_no_call_cache_unchanged failRenderer
    [("label=l&color=c&style=f&message=**", "<svg>**</svg>")]
    ⟨"l", "c", "f"⟩ 42 "<svg>**</svg>" rfl

/-- C6, counterexample: after two fetches with distinct params but the
same one-digit count, the reachable cache holds two entries in the same
digit-width class (both keys end in exactly one `'*'`), so the cache
does not contain at most one entry per distinct digit-width class. -/
theorem cache_two_entries_same_width_class :
    ReachableCache echoRenderer
      (fetch echoRenderer (fetch echoRenderer [] ⟨"a", "c", "s"⟩ 1).cache
        ⟨"b", "c", "s"⟩ 1).cache ∧
    countWidth
      (fetch echoRenderer (fetch echoRenderer [] ⟨"a", "c", "s"⟩ 1).cache
        ⟨"b", "c", "s"⟩ 1).cache 1 = 2 :=
  ⟨ReachableCache.step (fetch echoRenderer [] ⟨"a", "c", "s"⟩ 1).cache
      ⟨"b", "c", "s"⟩ 1
      (ReachableCache.step [] ⟨"a", "c", "s"⟩ 1 ReachableCache.init),
    by decide⟩

/-- C6, amended: in every cache state reachable by any sequence of
`fetch` operations, the cache holds at most one entry per distinct
cache key — that is, per (BadgeParams, digit-width) combination as
rendered in the key; distinct params may share a digit-width class. -/
theorem cache_at_most_one_entry_per_key
    (renderer : String → Except String String) (c : Cache)
    (h : ReachableCache renderer c) (k : String) :
    countKeyC c k ≤ 1 := by
  induction h with
  | init => simp [countKeyC]
  | step c2 p views hc ih =>
    cases hlk : lookupC c2 (to_query_string_template p views).1 with
    | some t =>
      rw [fetch_eq_hit renderer c2 p views t hlk]
      exact ih
    | none =>
      cases hr : renderer (to_query_string_template p views).1 with
      | error e =>
        rw [fetch_eq_miss_err renderer c2 p views e hlk hr]
        exact ih
      | ok t =>
        rw [fetch_eq_miss_ok renderer c2 p views t hlk hr]
        exact countKeyC_update_cache c2 _ t k ih

/-- Witness for the amended C6 at the cache reached by one fetch. -/
theorem cache_at_most_one_entry_per_key_witness :
    countKeyC (fetch echoRenderer [] ⟨"a", "c", "s"⟩ 1).cache
      "label=a&color=c&style=s&message=*" ≤ 1 :=
  cache_at_most_one_entry_per_key echoRenderer
    (fetch echoRenderer [] ⟨"a", "c", "s"⟩ 1).cache
    (ReachableCache.step [] ⟨"a", "c", "s"⟩ 1 ReachableCache.init)
    "label=a&color=c&style=s&message=*"
